import Mathlib

/-!
Verification of the table-normalization and change-detection pipeline of
`gerar_tabelas.py` (repository franklinbaldo/tambaqui).

A `Grid` is the raw rows-by-columns text content of one extracted PDF table
(`table.df` handed to `process_table`): a list of rows, each a list of cell
texts.  When pandas builds a DataFrame from ragged rows it pads the short
rows with NaN, so a cell is addressed as `row.get? j : Option String`, with
`none` standing for a missing (NaN) cell.
-/

abbrev Cell := Option String
abbrev Grid := List (List String)

/-- Month-code mapping `meses` from the source: three-letter Portuguese
month abbreviations to two-digit month numbers. -/
def meses : List (String × String) :=
  [("JAN", "01"), ("FEV", "02"), ("MAR", "03"), ("ABR", "04"),
   ("MAI", "05"), ("JUN", "06"), ("JUL", "07"), ("AGO", "08"),
   ("SET", "09"), ("OUT", "10"), ("NOV", "11"), ("DEZ", "12")]

/-- Number of columns of the padded DataFrame built from a ragged grid:
the maximum row length. -/
def ncols (g : Grid) : Nat :=
  g.foldr (fun r acc => max r.length acc) 0

/-- Python `s.replace('.', '')` (pandas `.str.replace('.', '', regex=False)`):
remove every literal dot. -/
def stripDots (s : String) : String :=
  ⟨s.data.filter (fun c => c ≠ '.')⟩

/-- Python `s.replace(',', '.')`: replace every literal comma by a dot. -/
def commaToDot (s : String) : String :=
  ⟨s.data.map (fun c => if c = ',' then '.' else c)⟩

/-- Pandas `.str.replace(" ", '', regex=False)` on the `Ano` column:
remove every literal space character (U+0020) - only spaces, not other
whitespace. -/
def removeSpaces (s : String) : String :=
  ⟨s.data.filter (fun c => c ≠ ' ')⟩

/-- Pandas `.astype(str)`: a NaN cell prints as the string "nan". -/
def astypeStr : Cell → String
  | none => "nan"
  | some s => s

/-- Value of a digit string, most significant first. -/
def digitsToNat (cs : List Char) : Nat :=
  cs.foldl (fun a c => 10 * a + (c.toNat - 48)) 0

/-- Digits of an exponent (must be nonempty and all decimal digits). -/
def parseExpDigits (cs : List Char) : Option Int :=
  match cs with
  | [] => none
  | _ => if cs.all Char.isDigit then some (digitsToNat cs : Int) else none

/-- Optionally signed exponent digits. -/
def parseSignedExp (cs : List Char) : Option Int :=
  match cs with
  | '-' :: rest => (parseExpDigits rest).map (fun n => -n)
  | '+' :: rest => parseExpDigits rest
  | _ => parseExpDigits cs

/-- The tail of a numeric literal after the mantissa: empty, or an
`e`/`E` exponent part. -/
def parseExpPart (cs : List Char) : Option Int :=
  match cs with
  | [] => some 0
  | 'e' :: rest => parseSignedExp rest
  | 'E' :: rest => parseSignedExp rest
  | _ => none

/-- Unsigned decimal literal: integer digits, optional fraction after a
dot (at least one digit overall), optional exponent.  Returns the
mantissa digits as a number, the count of fraction digits, and the
exponent. -/
def parseUnsigned (cs : List Char) : Option (Nat × Nat × Int) :=
  let ip := cs.takeWhile Char.isDigit
  let rest1 := cs.dropWhile Char.isDigit
  match rest1 with
  | '.' :: rest2 =>
      let fp := rest2.takeWhile Char.isDigit
      let rest3 := rest2.dropWhile Char.isDigit
      if ip.isEmpty && fp.isEmpty then none
      else (parseExpPart rest3).map (fun e => (digitsToNat (ip ++ fp), fp.length, e))
  | _ =>
      if ip.isEmpty then none
      else (parseExpPart rest1).map (fun e => (digitsToNat ip, 0, e))

/-- Exact rational value of a parsed literal: `sign * mant * 10 ^ (exp - frac)`,
assembled with `mkRat` over integer arithmetic. -/
def decValue (neg : Bool) (mant frac : Nat) (exp : Int) : ℚ :=
  let num : Int := if neg then -(mant : Int) else (mant : Int)
  let t : Int := exp - (frac : Int)
  if 0 ≤ t then mkRat (num * 10 ^ t.toNat) 1 else mkRat num (10 ^ (-t).toNat)

/-- Strip leading and trailing space characters. -/
def trimSpaces (cs : List Char) : List Char :=
  ((cs.dropWhile (fun c => c == ' ')).reverse.dropWhile (fun c => c == ' ')).reverse

/-- Model of `pd.to_numeric(..., errors='coerce')` on one cell text, with NaN
(`none`) for anything that is not a decimal literal.  Values are exact
rationals; special float tokens ("nan", "inf") are not decimal literals
here - a "nan" cell comes out `none`, which coincides with the code,
where the resulting NaN row is removed by `dropna`; an "inf" cell,
which `pd.to_numeric` parses to infinity and which then survives
`dropna`, is instead dropped: the model is restricted to finite
decimal literals. -/
def parseNumeric (s : String) : Option ℚ :=
  let cs := trimSpaces s.data
  if cs.headD ' ' = '-' then (parseUnsigned cs.tail).map (fun p => decValue true p.1 p.2.1 p.2.2)
  else if cs.headD ' ' = '+' then (parseUnsigned cs.tail).map (fun p => decValue false p.1 p.2.1 p.2.2)
  else (parseUnsigned cs).map (fun p => decValue false p.1 p.2.1 p.2.2)

/-- Line 45 of the source applied to one raw factor cell: stringify
(NaN prints "nan"), drop every '.', turn every ',' into '.', then parse
numerically with NaN on failure. -/
def fatorOfCell (c : Cell) : Option ℚ :=
  parseNumeric (commaToDot (stripDots (astypeStr c)))

/-- Header cell `j` of the grid: label of column `j` after
`df.columns = df.iloc[0]` (missing header cells are NaN padding). -/
def headerCell (g : Grid) (j : Nat) : Cell :=
  (g.headD []).get? j

/-- The value columns of `pd.melt(df, id_vars=[df.columns[0]], ...)`:
every column whose label differs from the label of column 0 (the id
label); columns carrying the id label itself are identifier columns and
are not unpivoted. -/
def valueCols (g : Grid) : List Nat :=
  (List.range (ncols g)).filter (fun j => headerCell g j ≠ headerCell g 0)

/-- The long-form triples (Mês, Ano, Fator) produced by the melt at line
41: for each value column (in column order), for each data row, the
row-label cell, the column's header label, and the data cell.  The
column-major order is melt's `ravel` order. -/
def meltTriples (g : Grid) : List (Cell × Cell × Cell) :=
  (valueCols g).flatMap (fun j =>
    g.tail.map (fun r => (r.get? 0, headerCell g j, r.get? j)))

/-- Lines 44-48 applied to one melt triple: normalize the year text
(stringify, drop spaces), parse the factor, drop the row if the month
cell is missing or the factor fails to parse (`dropna`), map the month
through the month dictionary (an unknown month becomes NaN), and
assemble the key `Ano ++ "-" ++ Mês` - in pandas, concatenating with a
NaN month yields a NaN key, modelled as `none`. -/
def mkEntry (mz : List (String × String)) : Cell × Cell × Cell → Option (Option String × ℚ)
  | (mes, ano, fator) =>
    match mes, fatorOfCell fator with
    | some m, some q =>
        some ((mz.lookup m).map (fun code => removeSpaces (astypeStr ano) ++ "-" ++ code), q)
    | _, _ => none

/-- The function `process_table(table_df, meses_dict)` from the source,
restricted to its non-raising paths: returns the empty series when the
DataFrame is empty (no rows or no columns), otherwise treats the first
row as the header, melts the body to long form and normalizes each
triple, dropping the ones whose factor does not parse or whose month
cell is missing.  The melt call at line 41 sits outside the try block
and can raise; `process_tableE` below wraps this function with those
exception paths. -/
def process_table (g : Grid) (mz : List (String × String)) : List (Option String × ℚ) :=
  if g.isEmpty || ncols g == 0 then []
  else (meltTriples g).filterMap (mkEntry mz)

/-- First raise path of the melt at line 41: `pd.melt` is called with
`value_name='Fator'` and raises a ValueError whenever that name already
occurs among the column labels ("value_name cannot match an element in
the DataFrame columns"). -/
def valueNameCollision (g : Grid) : Bool :=
  (List.range (ncols g)).any (fun j => headerCell g j == some "Fator")

/-- Second raise path of the melt at line 41: with `id_vars=[df.columns[0]]`,
melt pops the id column by label; when a second column shares the first
label (NaN labels match each other), the pop returns a two-column frame
and melt crashes. -/
def duplicatedIdLabel (g : Grid) : Bool :=
  decide (2 ≤ ((List.range (ncols g)).filter
    (fun j => headerCell g j == headerCell g 0)).length)

/-- The function `process_table` with its exception behavior: the melt
call at line 41 is outside the try block (which covers only the header
assignment at lines 27-28), so on either melt raise path the exception
escapes `process_table`; every other grid yields the series of
`process_table`. -/
def process_tableE (g : Grid) (mz : List (String × String)) :
    Except String (List (Option String × ℚ)) :=
  if g.isEmpty || ncols g == 0 then Except.ok []
  else if valueNameCollision g then
    Except.error "ValueError: value_name cannot match an element in the DataFrame columns"
  else if duplicatedIdLabel g then
    Except.error "melt fails on a duplicated id column label"
  else Except.ok ((meltTriples g).filterMap (mkEntry mz))

/-- State of the token-cache file as seen by `get_stored_last_modified`:
absent, present and readable with some content, or present but failing
to read with an IOError. -/
inductive FileState where
  | absent : FileState
  | readable (content : String) : FileState
  | unreadable : FileState
deriving DecidableEq

/-- Python `str.strip()`: remove leading and trailing whitespace. -/
def pyStrip (s : String) : String :=
  ⟨((s.data.dropWhile Char.isWhitespace).reverse.dropWhile Char.isWhitespace).reverse⟩

/-- The function `get_stored_last_modified(filepath)` from the source: `None` when the
file does not exist, the stripped content when the read succeeds, and -
because the `except IOError` branch only prints and falls through to
`return None` - `None` again when the read raises. -/
def get_stored_last_modified : FileState → Option String
  | FileState.absent => none
  | FileState.readable c => some (pyStrip c)
  | FileState.unreadable => none

/-- The function `fetch_and_parse_pdf`: the camelot collaborator either fails (`none`)
or yields a list of raw grids; an empty list is turned into `None` by
the `if not tables` check. -/
def fetch_and_parse_pdf (r : Option (List Grid)) : Option (List Grid) :=
  match r with
  | none => none
  | some ts => if ts.isEmpty then none else some ts

/-- The function `process_and_concatenate_tables(tables_list)`: process
every grid inside a try/except - a table whose processing raises is
skipped and contributes nothing - keep the non-empty fragments, and
concatenate them. -/
def process_and_concatenate_tables (ts : List Grid) : List (Option String × ℚ) :=
  ((ts.map (fun t =>
      match process_tableE t meses with
      | Except.ok s => s
      | Except.error _ => [])).filter (fun s => !s.isEmpty)).flatten

/-- The function `save_dataframes(df, json_path, csv_path)`: refuses an empty frame,
then succeeds only when both the JSON and the CSV write succeed. -/
def save_dataframes (s : List (Option String × ℚ)) (jsonOk csvOk : Bool) : Bool :=
  if s.isEmpty then false else jsonOk && csvOk

/-- The three user-visible outcomes of a run of `main`: the script's
final status line distinguishes a full regeneration, the unchanged
no-op (early `sys.exit(0)`), and a failure (`sys.exit(1)`). -/
inductive Outcome where
  | successChanged : Outcome
  | noopUnchanged : Outcome
  | failure : Outcome
deriving DecidableEq

/-- The external state a run of `main` interacts with. -/
structure World where
  serverLM : Option String
  storedFile : FileState
  jsonExists : Bool
  csvExists : Bool
  camelotResult : Option (List Grid)
  jsonSaveOk : Bool
  csvSaveOk : Bool

/-- What a run of `main` did: final outcome, the token written to the
cache file (`none` when `store_last_modified_to_file` was never
called), and which pipeline stages were invoked. -/
structure RunResult where
  outcome : Outcome
  tokenWritten : Option String
  fetchCalled : Bool
  processCalled : Bool
  saveCalled : Bool
deriving DecidableEq

/-- The function `main()` from the source (named `main_run` since Lean reserves `main`): fetch the server token (abort on failure),
read the stored token, short-circuit when they match and both outputs
exist, otherwise fetch + parse the PDF (abort on failure), process and
concatenate the tables (abort when empty), save, and store the new
token only when saving succeeded. -/
def main_run (w : World) : RunResult :=
  match w.serverLM with
  | none => ⟨Outcome.failure, none, false, false, false⟩
  | some cur =>
    if some cur = get_stored_last_modified w.storedFile ∧ w.jsonExists = true ∧ w.csvExists = true then
      ⟨Outcome.noopUnchanged, none, false, false, false⟩
    else
      match fetch_and_parse_pdf w.camelotResult with
      | none => ⟨Outcome.failure, none, true, false, false⟩
      | some tables =>
        let merged := process_and_concatenate_tables tables
        if merged.isEmpty then ⟨Outcome.failure, none, true, true, false⟩
        else if save_dataframes merged w.jsonSaveOk w.csvSaveOk then
          ⟨Outcome.successChanged, some cur, true, true, true⟩
        else ⟨Outcome.failure, none, true, true, true⟩

/-- Shape of a canonical output key: four digits, a hyphen, two digits. -/
def validKey (s : String) : Bool :=
  match s.data with
  | [a, b, c, d, e, f, g] =>
      a.isDigit && b.isDigit && c.isDigit && d.isDigit && (e == '-') && f.isDigit && g.isDigit
  | _ => false

/-- A year label is good when, after the space removal of line 44, it is
exactly four decimal digits. -/
def goodYear (y : String) : Bool :=
  (removeSpaces y).data.length == 4 && (removeSpaces y).data.all Char.isDigit

/-- A raw factor cell text is good when it is blank, the dash
placeholder, or is made only of digits and the locale separators. -/
def goodFactorText (s : String) : Bool :=
  s == "" || s == "-" || s.data.all (fun c => c.isDigit || c == '.' || c == ',')

/-- A well-formed grid: the header row spans every column, its year
labels are four digits after space removal, every data row's label cell
is a recognized month code, and every data cell is blank, a dash, or a
locale-formatted numeral. -/
def wellFormed (g : Grid) : Bool :=
  ((g.headD []).length == ncols g)
  && (g.headD []).tail.all goodYear
  && g.tail.all (fun r =>
      (r.isEmpty || (meses.lookup (r.headD "")).isSome)
      && r.tail.all goodFactorText)

theorem lookup_mem {k c : String} :
    ∀ {l : List (String × String)}, l.lookup k = some c → (k, c) ∈ l := by
  intro l
  induction l with
  | nil => intro h; simp [List.lookup] at h
  | cons p t ih =>
    intro h
    rcases p with ⟨a, b⟩
    rw [List.lookup] at h
    by_cases hk : k = a
    · subst hk
      simp at h
      simp [h]
    · have hbeq : (k == a) = false := by simp [hk]
      rw [hbeq] at h
      exact List.mem_cons_of_mem _ (ih h)

theorem month_code_shape {m c : String} (h : meses.lookup m = some c) :
    c.data.length = 2 ∧ c.data.all Char.isDigit = true := by
  have hm : (m, c) ∈ meses := lookup_mem h
  have hall : ∀ p ∈ meses, p.2.data.length = 2 ∧ p.2.data.all Char.isDigit = true := by decide
  exact hall _ hm

theorem list_len4 {α : Type} {l : List α} (h : l.length = 4) :
    ∃ a b c d, l = [a, b, c, d] := by
  rcases l with _ | ⟨a, l⟩; · simp at h
  rcases l with _ | ⟨b, l⟩; · simp at h
  rcases l with _ | ⟨c, l⟩; · simp at h
  rcases l with _ | ⟨d, l⟩; · simp at h
  rcases l with _ | ⟨e, l⟩
  · exact ⟨a, b, c, d, rfl⟩
  · simp at h

theorem list_len2 {α : Type} {l : List α} (h : l.length = 2) :
    ∃ a b, l = [a, b] := by
  rcases l with _ | ⟨a, l⟩; · simp at h
  rcases l with _ | ⟨b, l⟩; · simp at h
  rcases l with _ | ⟨c, l⟩
  · exact ⟨a, b, rfl⟩
  · simp at h

theorem validKey_assemble {y c : String}
    (hy4 : y.data.length = 4) (hyd : y.data.all Char.isDigit = true)
    (hc2 : c.data.length = 2) (hcd : c.data.all Char.isDigit = true) :
    validKey (y ++ "-" ++ c) = true := by
  obtain ⟨a, b, c1, d, hy⟩ := list_len4 hy4
  obtain ⟨e, f, hc⟩ := list_len2 hc2
  have hdata : (y ++ "-" ++ c).data = [a, b, c1, d, '-', e, f] := by
    rw [String.data_append, String.data_append, hy, hc]
    rfl
  rw [hy] at hyd
  rw [hc] at hcd
  simp at hyd hcd
  unfold validKey
  rw [hdata]
  simp [hyd.1, hyd.2.1, hyd.2.2.1, hyd.2.2.2, hcd.1, hcd.2]

theorem mkRat_nonneg_of {n : Int} (d : Nat) (h : 0 ≤ n) : 0 ≤ mkRat n d := by
  rw [Rat.mkRat_eq_div]
  apply div_nonneg
  · exact_mod_cast h
  · positivity

theorem decValue_nonneg (m k : Nat) (e : Int) : 0 ≤ decValue false m k e := by
  show 0 ≤ if 0 ≤ e - (k : Int) then mkRat ((m : Int) * 10 ^ (e - (k : Int)).toNat) 1
           else mkRat (m : Int) (10 ^ (-(e - (k : Int))).toNat)
  split
  · apply mkRat_nonneg_of
    exact mul_nonneg (Int.natCast_nonneg m) (by positivity)
  · apply mkRat_nonneg_of
    exact Int.natCast_nonneg m

theorem mem_of_dropWhile {p : Char → Bool} {c : Char} {l : List Char}
    (h : c ∈ l.dropWhile p) : c ∈ l := by
  induction l with
  | nil => simp at h
  | cons a t ih =>
    rw [List.dropWhile_cons] at h
    by_cases hpa : p a = true
    · simp only [hpa, if_true] at h
      exact List.mem_cons_of_mem _ (ih h)
    · simp only [hpa, if_false] at h
      exact h

theorem mem_of_trimSpaces {c : Char} {l : List Char} (h : c ∈ trimSpaces l) : c ∈ l := by
  unfold trimSpaces at h
  rw [List.mem_reverse] at h
  have h1 := mem_of_dropWhile h
  rw [List.mem_reverse] at h1
  exact mem_of_dropWhile h1

theorem parseNumeric_nonneg {s : String} {q : ℚ}
    (hs : ∀ c ∈ s.data, c ≠ '-') (h : parseNumeric s = some q) : 0 ≤ q := by
  unfold parseNumeric at h
  have hminus : (trimSpaces s.data).headD ' ' ≠ '-' := by
    intro hc
    cases htr : trimSpaces s.data with
    | nil => rw [htr] at hc; simp at hc
    | cons c0 rest =>
      rw [htr] at hc
      simp at hc
      exact hs c0 (mem_of_trimSpaces (htr ▸ List.mem_cons_self c0 rest)) hc
  rw [if_neg hminus] at h
  by_cases hplus : (trimSpaces s.data).headD ' ' = '+'
  · rw [if_pos hplus] at h
    obtain ⟨p, _, rfl⟩ := Option.map_eq_some'.mp h
    exact decValue_nonneg p.1 p.2.1 p.2.2
  · rw [if_neg hplus] at h
    obtain ⟨p, _, rfl⟩ := Option.map_eq_some'.mp h
    exact decValue_nonneg p.1 p.2.1 p.2.2

theorem mem_process_table {g : Grid} {mz : List (String × String)} {p : Option String × ℚ}
    (hp : p ∈ process_table g mz) :
    ∃ j r, j ∈ valueCols g ∧ r ∈ g.tail ∧
      mkEntry mz (r.get? 0, headerCell g j, r.get? j) = some p := by
  unfold process_table at hp
  split at hp
  · simp at hp
  · obtain ⟨t, ht, he⟩ := List.mem_filterMap.mp hp
    unfold meltTriples at ht
    obtain ⟨j, hj, htj⟩ := List.mem_flatMap.mp ht
    obtain ⟨r, hr, rfl⟩ := List.mem_map.mp htj
    exact ⟨j, r, hj, hr, he⟩

theorem process_table_intro {g : Grid} {mz : List (String × String)} {j : Nat}
    {r : List String} {p : Option String × ℚ}
    (hj : j ∈ valueCols g) (hr : r ∈ g.tail)
    (he : mkEntry mz (r.get? 0, headerCell g j, r.get? j) = some p) :
    p ∈ process_table g mz := by
  have hlt : j < ncols g := List.mem_range.mp (List.mem_filter.mp hj).1
  have hg : g.isEmpty = false := by
    cases g with
    | nil => simp at hr
    | cons a t => rfl
  have h2 : (ncols g == 0) = false := by
    simp only [beq_eq_false_iff_ne, ne_eq]
    omega
  unfold process_table
  rw [hg, h2]
  simp only [Bool.or_self, Bool.false_eq_true, if_false]
  apply List.mem_filterMap.mpr
  refine ⟨_, ?_, he⟩
  unfold meltTriples
  exact List.mem_flatMap.mpr ⟨j, hj, List.mem_map.mpr ⟨r, hr, rfl⟩⟩

theorem valueCols_pos {g : Grid} {j : Nat} (hj : j ∈ valueCols g) : 1 ≤ j := by
  rcases Nat.eq_zero_or_pos j with h0 | h1
  · subst h0
    have := (List.mem_filter.mp hj).2
    simp at this
  · exact h1

theorem mkEntry_some_parts {mz : List (String × String)} {mes ano fator : Cell}
    {p : Option String × ℚ} (h : mkEntry mz (mes, ano, fator) = some p) :
    ∃ m q, mes = some m ∧ fatorOfCell fator = some q ∧
      p = ((mz.lookup m).map (fun code => removeSpaces (astypeStr ano) ++ "-" ++ code), q) := by
  cases mes with
  | none =>
    exfalso
    cases hq : fatorOfCell fator <;> simp [mkEntry, hq] at h
  | some m =>
    cases hq : fatorOfCell fator with
    | none => exfalso; simp [mkEntry, hq] at h
    | some q =>
      refine ⟨m, q, rfl, rfl, ?_⟩
      simp [mkEntry, hq] at h
      exact h.symm

theorem fatorOfCell_none : fatorOfCell none = none := by decide

theorem goodFactor_no_minus {s : String} (hall : s.data.all (fun c => c.isDigit || c == '.' || c == ',') = true) :
    ∀ c ∈ (commaToDot (stripDots s)).data, c ≠ '-' := by
  intro c hc
  simp only [commaToDot, stripDots, List.mem_map, List.mem_filter,
    decide_eq_true_eq, ne_eq] at hc
  obtain ⟨a, ⟨ha, hadot⟩, rfl⟩ := hc
  by_cases hacomma : a = ','
  · simp [hacomma]
  · rw [if_neg hacomma]
    rw [List.all_eq_true] at hall
    have h3 := hall a ha
    simp only [Bool.or_eq_true, beq_iff_eq] at h3
    rcases h3 with (h3 | h3) | h3
    · intro habs
      rw [habs] at h3
      exact absurd h3 (by decide)
    · exact absurd h3 hadot
    · exact absurd h3 hacomma

theorem goodFactor_parse_nonneg {s : String} {q : ℚ}
    (hgood : goodFactorText s = true) (hq : fatorOfCell (some s) = some q) : 0 ≤ q := by
  unfold goodFactorText at hgood
  rw [Bool.or_eq_true, Bool.or_eq_true, beq_iff_eq, beq_iff_eq] at hgood
  rcases hgood with (hempty | hdash) | hall
  · subst hempty
    have : fatorOfCell (some "") = none := by decide
    rw [this] at hq
    exact absurd hq (by simp)
  · subst hdash
    have : fatorOfCell (some "-") = none := by decide
    rw [this] at hq
    exact absurd hq (by simp)
  · exact parseNumeric_nonneg (goodFactor_no_minus hall) hq

theorem get?_tail_mem {α : Type} {r : List α} {j : Nat} {s : α}
    (hj1 : 1 ≤ j) (hs : r.get? j = some s) : s ∈ r.tail := by
  cases r with
  | nil => simp at hs
  | cons a t =>
    obtain ⟨k, rfl⟩ := Nat.exists_eq_add_of_le hj1
    rw [Nat.add_comm 1 k] at hs
    rw [List.get?_cons_succ] at hs
    exact List.get?_mem hs

/-- Claim C1: the factor cell text is normalized by removing every
literal '.', then replacing every ',' with '.', then parsing as a
number; "1.234.567,89" parses to 1234567.89, "1.000,00" to 1000.0, and
the already-dotted "1000.00" is corrupted to 100000.0. -/
theorem C1_factor_normalization :
    (∀ c : Cell, fatorOfCell c = parseNumeric (commaToDot (stripDots (astypeStr c))))
    ∧ fatorOfCell (some "1.234.567,89") = some ((123456789 : ℚ) / 100)
    ∧ fatorOfCell (some "1.000,00") = some 1000
    ∧ fatorOfCell (some "1000.00") = some 100000 := by
  refine ⟨fun c => rfl, ?_, by decide, by decide⟩
  have h : fatorOfCell (some "1.234.567,89") = some (mkRat 123456789 100) := by decide
  rw [h, Rat.mkRat_eq_div]
  norm_num

/-- Claim C2: on a well-formed grid every produced key is a present
string matching the four-digits, hyphen, two-digits pattern, and every
factor is non-negative (factors are exact rationals here, hence
finite). -/
theorem C2_wellformed_output_invariant {g : Grid} {p : Option String × ℚ}
    (hwf : wellFormed g = true) (hp : p ∈ process_table g meses) :
    (∃ s, p.1 = some s ∧ validKey s = true) ∧ 0 ≤ p.2 := by
  obtain ⟨j, r, hj, hr, he⟩ := mem_process_table hp
  obtain ⟨m, q, hmes, hfat, hpe⟩ := mkEntry_some_parts he
  unfold wellFormed at hwf
  rw [Bool.and_eq_true, Bool.and_eq_true] at hwf
  obtain ⟨⟨hlen, hyears⟩, hrows⟩ := hwf
  have hj1 : 1 ≤ j := valueCols_pos hj
  have hjlt : j < ncols g := List.mem_range.mp (List.mem_filter.mp hj).1
  have hlen' : (g.headD []).length = ncols g := by simpa using hlen
  have hylt : j < (g.headD []).length := by rw [hlen']; exact hjlt
  have hy : headerCell g j = some ((g.headD []).get ⟨j, hylt⟩) := List.get?_eq_get hylt
  have hymem : (g.headD []).get ⟨j, hylt⟩ ∈ (g.headD []).tail := get?_tail_mem hj1 hy
  have hgy : goodYear ((g.headD []).get ⟨j, hylt⟩) = true :=
    List.all_eq_true.mp hyears _ hymem
  have hpred := List.all_eq_true.mp hrows r hr
  rw [Bool.and_eq_true] at hpred
  obtain ⟨hmon, hcells⟩ := hpred
  have hsome : ∃ s, r.get? j = some s := by
    cases hc : r.get? j with
    | none => rw [hc, fatorOfCell_none] at hfat; exact absurd hfat (by simp)
    | some s => exact ⟨s, rfl⟩
  obtain ⟨s, hs⟩ := hsome
  have hsmem : s ∈ r.tail := get?_tail_mem hj1 hs
  have hgoodf : goodFactorText s = true := List.all_eq_true.mp hcells s hsmem
  rw [hs] at hfat
  cases r with
  | nil => simp at hmes
  | cons a t =>
    have ham : a = m := by simpa using hmes
    subst ham
    simp only [List.isEmpty_cons, List.headD_cons, Bool.false_or] at hmon
    obtain ⟨code, hcode⟩ := Option.isSome_iff_exists.mp hmon
    have hcs := month_code_shape hcode
    unfold goodYear at hgy
    rw [Bool.and_eq_true] at hgy
    obtain ⟨hyl, hyd⟩ := hgy
    constructor
    · refine ⟨removeSpaces ((g.headD []).get ⟨j, hylt⟩) ++ "-" ++ code, ?_, ?_⟩
      · rw [hpe, hy]
        simp [astypeStr, hcode]
      · exact validKey_assemble (by simpa using hyl) hyd hcs.1 hcs.2
    · rw [hpe]
      exact goodFactor_parse_nonneg hgoodf hfat

theorem C2_wellformed_output_invariant_witness :
    (∃ s, ((some "2023-01", (1000 : ℚ)) : Option String × ℚ).1 = some s ∧ validKey s = true)
    ∧ 0 ≤ ((some "2023-01", (1000 : ℚ)) : Option String × ℚ).2 :=
  C2_wellformed_output_invariant
    (g := [["Mês/Ano", "2023"], ["JAN", "1.000,00"]])
    (p := (some "2023-01", 1000)) (by decide) (by decide)

/-- Claim C5: a data cell whose text is empty, "-", or otherwise fails
the locale parse never yields an entry: every entry of the output comes
from a data cell whose text parses, and the concrete grid whose only
cells are "", "-" and "N/A" normalizes to the empty series. -/
theorem C5_unparseable_dropped :
    (∀ (g : Grid) (p : Option String × ℚ), p ∈ process_table g meses →
      ∃ r ∈ g.tail, ∃ j s, 1 ≤ j ∧ r.get? j = some s ∧ fatorOfCell (some s) = some p.2)
    ∧ process_table [["Mês/Ano", "2023", "2024", "2025"], ["JAN", "", "-", "N/A"]] meses = [] := by
  constructor
  · intro g p hp
    obtain ⟨j, r, hj, hr, he⟩ := mem_process_table hp
    obtain ⟨m, q, hmes, hfat, hpe⟩ := mkEntry_some_parts he
    have hj1 := valueCols_pos hj
    cases hc : r.get? j with
    | none => rw [hc, fatorOfCell_none] at hfat; exact absurd hfat (by simp)
    | some s =>
      rw [hc] at hfat
      refine ⟨r, hr, j, s, hj1, hc, ?_⟩
      rw [hpe]
      exact hfat
  · decide

theorem C5_unparseable_dropped_witness :
    ∃ r ∈ ([["Mês/Ano", "2023"], ["JAN", "1.000,00"]] : Grid).tail,
      ∃ j s, 1 ≤ j ∧ r.get? j = some s ∧
        fatorOfCell (some s) = some ((some "2023-01", (1000 : ℚ)) : Option String × ℚ).2 :=
  C5_unparseable_dropped.1 [["Mês/Ano", "2023"], ["JAN", "1.000,00"]]
    (some "2023-01", 1000) (by decide)

/-- Claim C6 counterexample: a grid consisting only of a header row
does not always normalize to an empty series without error: when a
header cell equals the melt `value_name` 'Fator', the `pd.melt` call at
line 41 - outside the try block - raises a ValueError out of
`process_table` instead. -/
theorem C6_header_fator_counterexample :
    process_tableE [["Mês/Ano", "Fator"]] meses
      = Except.error "ValueError: value_name cannot match an element in the DataFrame columns"
    ∧ process_tableE [["Mês/Ano", "Fator"]] meses ≠ Except.ok [] := by
  have h : process_tableE [["Mês/Ano", "Fator"]] meses
      = Except.error "ValueError: value_name cannot match an element in the DataFrame columns" := by
    rfl
  exact ⟨h, by rw [h]; simp⟩

/-- Claim C6 amended: a grid with zero rows, or with zero columns,
normalizes to the empty series without error; a grid consisting only of
a header row also does, provided the header triggers neither melt
exception path (no label equal to the melt `value_name` 'Fator' and no
second column sharing the first label) - with such a header the
exception escapes `process_table` instead. -/
theorem C6_empty_input_empty_series :
    process_tableE [] meses = Except.ok []
    ∧ (∀ g : Grid, ncols g = 0 → process_tableE g meses = Except.ok [])
    ∧ (∀ h : List String, valueNameCollision [h] = false → duplicatedIdLabel [h] = false →
        process_tableE [h] meses = Except.ok []) := by
  refine ⟨rfl, ?_, ?_⟩
  · intro g hg
    unfold process_tableE
    rw [if_pos]
    simp [hg]
  · intro h hA hB
    unfold process_tableE
    by_cases hc : (([h] : Grid).isEmpty || ncols [h] == 0) = true
    · rw [if_pos hc]
    · rw [if_neg hc, hA, hB]
      simp only [Bool.false_eq_true, if_false]
      rw [show meltTriples [h] = [] from by simp [meltTriples]]
      rfl

theorem C6_empty_input_empty_series_witness :
    process_tableE [["Mês/Ano", "2023"]] meses = Except.ok [] :=
  C6_empty_input_empty_series.2.2 ["Mês/Ano", "2023"] (by decide) (by decide)

/-- Claim C7 counterexample: `process_table` can raise past its
boundary: the melt at line 41 is outside the try block, so a header
label equal to the melt `value_name` 'Fator', or a duplicated first
header label, makes the exception escape instead of an empty or partial
series. -/
theorem C7_melt_raises_counterexample :
    process_tableE [["Fator", "2023"], ["JAN", "1,0"]] meses
      = Except.error "ValueError: value_name cannot match an element in the DataFrame columns"
    ∧ process_tableE [["A", "A"], ["JAN", "1,0"]] meses
      = Except.error "melt fails on a duplicated id column label"
    ∧ Except.error "ValueError: value_name cannot match an element in the DataFrame columns"
      ≠ (Except.ok [] : Except String (List (Option String × ℚ))) := by
  refine ⟨rfl, rfl, by simp⟩

/-- Claim C7 amended: `process_table` never raises except on the two
melt exception paths (a header label equal to the melt `value_name`
'Fator', or a second column sharing the first header label); away from
those, the run succeeds and failures degrade to absence: a zero-column
grid yields the empty series, the output never exceeds the unpivoted
triples, and a ragged grid of junk cells degrades to the partial series
of its parseable cells.  Containment of the raise paths is performed by
the caller `process_and_concatenate_tables`, whose try/except skips a
raising table while keeping the others. -/
theorem C7_degrade_or_raise :
    (∀ g : Grid, valueNameCollision g = false → duplicatedIdLabel g = false →
        process_tableE g meses = Except.ok (process_table g meses))
    ∧ (∀ g : Grid, ncols g = 0 → process_tableE g meses = Except.ok [])
    ∧ (∀ g : Grid, (process_table g meses).length ≤ (meltTriples g).length)
    ∧ process_tableE [["Mês/Ano", "2023"], ["JAN"], ["FEV", "N/A", "junk"], [], ["MAR", "1,5", "x"]]
        meses = Except.ok [(some "2023-03", mkRat 3 2)]
    ∧ process_and_concatenate_tables
        [[["Fator", "2023"], ["JAN", "1,0"]], [["Mês/Ano", "2023"], ["JAN", "1.000,00"]]]
        = [(some "2023-01", 1000)] := by
  refine ⟨?_, ?_, ?_, rfl, by decide⟩
  · intro g hA hB
    unfold process_tableE process_table
    by_cases hc : (g.isEmpty || ncols g == 0) = true
    · rw [if_pos hc, if_pos hc]
    · rw [if_neg hc, if_neg hc, hA, hB]
      simp only [Bool.false_eq_true, if_false]
  · intro g hg
    unfold process_tableE
    rw [if_pos]
    simp [hg]
  · intro g
    unfold process_table
    split
    · simp
    · exact List.length_filterMap_le _ _

theorem C7_degrade_or_raise_witness :
    process_tableE [["Mês/Ano", "2023"], ["JAN", "1.000,00"]] meses
      = Except.ok (process_table [["Mês/Ano", "2023"], ["JAN", "1.000,00"]] meses) :=
  C7_degrade_or_raise.1 [["Mês/Ano", "2023"], ["JAN", "1.000,00"]] (by decide) (by decide)

/-- Claim C3 counterexample: a row whose label "XXX" is no month code
but whose factor parses still yields an entry, yet its key is the
missing (NaN) value, not the string "2023-" with an empty month
segment: pandas string concatenation with the NaN month yields NaN. -/
theorem C3_empty_month_key_counterexample :
    process_table [["Mês/Ano", "2023"], ["XXX", "1.000,00"]] meses = [(none, 1000)]
    ∧ (none : Option String) ≠ some "2023-" := ⟨by decide, by decide⟩

/-- Claim C3 amended: a data row with an unrecognized month code and a
parseable factor cell in a value column still produces an entry, and
that entry's key is the missing (NaN) value. -/
theorem C3_unmapped_month_nan_key {g : Grid} {r : List String} {j : Nat} {m s : String} {q : ℚ}
    (hr : r ∈ g.tail) (hm : r.get? 0 = some m) (hlk : meses.lookup m = none)
    (hj : j ∈ valueCols g) (hs : r.get? j = some s) (hq : fatorOfCell (some s) = some q) :
    (none, q) ∈ process_table g meses := by
  apply process_table_intro hj hr
  rw [hm, hs]
  simp [mkEntry, hq, hlk]

theorem C3_unmapped_month_nan_key_witness :
    ((none : Option String), (1000 : ℚ)) ∈
      process_table [["Mês/Ano", "2023"], ["XXX", "1.000,00"]] meses :=
  C3_unmapped_month_nan_key
    (g := [["Mês/Ano", "2023"], ["XXX", "1.000,00"]])
    (r := ["XXX", "1.000,00"]) (j := 1) (m := "XXX") (s := "1.000,00") (q := 1000)
    (by decide) (by decide) (by decide) (by decide) (by decide) (by decide)

/-- Claim C4 counterexample: the year normalization removes only literal
space characters, not all whitespace: a tab inside the year label
survives into the key, so "20\t23" does not normalize to "2023". -/
theorem C4_whitespace_counterexample :
    process_table [["Mês/Ano", "20\t23"], ["JAN", "1,5"]] meses
      = [(some "20\t23-01", mkRat 3 2)]
    ∧ ("20\t23-01" : String) ≠ "2023-01" := ⟨by decide, by decide⟩

/-- Claim C4 amended: before key assembly the year label text has every
literal space character (U+0020) removed - only spaces, not other
whitespace - so "2 023" normalizes to "2023" while a tab survives. -/
theorem C4_space_stripping_amended {h y m s c : String} {q : ℚ}
    (hy : y ≠ h) (hm : meses.lookup m = some c) (hq : fatorOfCell (some s) = some q) :
    process_table [[h, y], [m, s]] meses = [(some (removeSpaces y ++ "-" ++ c), q)]
    ∧ removeSpaces "2 023" = "2023" ∧ removeSpaces "20\t23" = "20\t23" := by
  refine ⟨?_, by decide, by decide⟩
  unfold process_table
  have hne : ¬ (([[h, y], [m, s]] : Grid).isEmpty || ncols [[h, y], [m, s]] == 0) = true := by
    simp [ncols]
  rw [if_neg hne]
  unfold meltTriples valueCols
  have h2 : ncols [[h, y], [m, s]] = 2 := by simp [ncols]
  rw [h2]
  have hr2 : List.range 2 = [0, 1] := by decide
  rw [hr2]
  simp [headerCell, List.filter, hy, mkEntry, hq, hm, astypeStr]

theorem C4_space_stripping_amended_witness :
    process_table [["Mês/Ano", "2 023"], ["JAN", "1.000,00"]] meses
      = [(some (removeSpaces "2 023" ++ "-" ++ "01"), (1000 : ℚ))]
    ∧ removeSpaces "2 023" = "2023" ∧ removeSpaces "20\t23" = "20\t23" :=
  C4_space_stripping_amended
    (h := "Mês/Ano") (y := "2 023") (m := "JAN") (s := "1.000,00") (c := "01") (q := 1000)
    (by decide) (by decide) (by decide)

/-- Claim C8: the stored token is written exactly on the fully
successful path - it then carries the freshly fetched token - and a
successful outcome presupposes that fetch, processing and saving all
ran and both writes succeeded; on every other path nothing is written. -/
theorem C8_token_update_on_full_success :
    ∀ w : World,
      ((main_run w).tokenWritten =
        if (main_run w).outcome = Outcome.successChanged then w.serverLM else none)
      ∧ ((main_run w).outcome = Outcome.successChanged →
          (main_run w).fetchCalled = true ∧ (main_run w).processCalled = true ∧
          (main_run w).saveCalled = true ∧ w.jsonSaveOk = true ∧ w.csvSaveOk = true) := by
  intro w
  unfold main_run
  cases hsv : w.serverLM with
  | none => simp
  | some cur =>
    dsimp only
    by_cases hnoop : (some cur = get_stored_last_modified w.storedFile
        ∧ w.jsonExists = true ∧ w.csvExists = true)
    · rw [if_pos hnoop]
      simp
    · rw [if_neg hnoop]
      cases hf : fetch_and_parse_pdf w.camelotResult with
      | none => simp
      | some tables =>
        dsimp only
        by_cases hmerged : (process_and_concatenate_tables tables).isEmpty = true
        · rw [if_pos hmerged]
          simp
        · rw [if_neg hmerged]
          by_cases hsave : save_dataframes (process_and_concatenate_tables tables)
              w.jsonSaveOk w.csvSaveOk = true
          · rw [if_pos hsave]
            refine ⟨by simp, fun _ => ?_⟩
            unfold save_dataframes at hsave
            rw [if_neg hmerged, Bool.and_eq_true] at hsave
            exact ⟨rfl, rfl, rfl, hsave.1, hsave.2⟩
          · rw [if_neg hsave]
            simp

theorem C8_token_update_on_full_success_witness :
    (main_run ⟨some "T2", FileState.readable "T1", true, true,
        some [[["Mês/Ano", "2023"], ["JAN", "1.000,00"]]], true, true⟩).fetchCalled = true
    ∧ (main_run ⟨some "T2", FileState.readable "T1", true, true,
        some [[["Mês/Ano", "2023"], ["JAN", "1.000,00"]]], true, true⟩).processCalled = true
    ∧ (main_run ⟨some "T2", FileState.readable "T1", true, true,
        some [[["Mês/Ano", "2023"], ["JAN", "1.000,00"]]], true, true⟩).saveCalled = true
    ∧ true = true ∧ true = true :=
  (C8_token_update_on_full_success ⟨some "T2", FileState.readable "T1", true, true,
    some [[["Mês/Ano", "2023"], ["JAN", "1.000,00"]]], true, true⟩).2 (by decide)

/-- Claim C9: when the fresh token equals the stored token and both
output files exist, the run is the no-op outcome with no fetch, no
processing, no save and no token write. -/
theorem C9_noop_gate {w : World} {t : String}
    (hcur : w.serverLM = some t) (hstored : get_stored_last_modified w.storedFile = some t)
    (hjson : w.jsonExists = true) (hcsv : w.csvExists = true) :
    (main_run w).outcome = Outcome.noopUnchanged
    ∧ (main_run w).fetchCalled = false
    ∧ (main_run w).processCalled = false
    ∧ (main_run w).saveCalled = false
    ∧ (main_run w).tokenWritten = none := by
  obtain ⟨sLM, sF, jE, cE, cR, jS, cS⟩ := w
  simp only at hcur hstored hjson hcsv
  subst hcur
  subst hjson
  subst hcsv
  unfold main_run
  dsimp only
  rw [if_pos ⟨hstored.symm, rfl, rfl⟩]
  exact ⟨rfl, rfl, rfl, rfl, rfl⟩

theorem C9_noop_gate_witness :
    (main_run ⟨some "T", FileState.readable "T", true, true, none, true, true⟩).outcome
      = Outcome.noopUnchanged
    ∧ (main_run ⟨some "T", FileState.readable "T", true, true, none, true, true⟩).fetchCalled = false
    ∧ (main_run ⟨some "T", FileState.readable "T", true, true, none, true, true⟩).processCalled = false
    ∧ (main_run ⟨some "T", FileState.readable "T", true, true, none, true, true⟩).saveCalled = false
    ∧ (main_run ⟨some "T", FileState.readable "T", true, true, none, true, true⟩).tokenWritten = none :=
  C9_noop_gate (t := "T") rfl (by decide) rfl rfl

/-- Claim C10: a cache file whose read raises an IOError is reported
exactly like an absent file (the absent value), so the gate never takes
the no-op branch on it and proceeds to the document fetch, as on a
first run. -/
theorem C10_unreadable_cache_proceeds :
    get_stored_last_modified FileState.unreadable = none
    ∧ get_stored_last_modified FileState.unreadable = get_stored_last_modified FileState.absent
    ∧ ∀ w : World, w.storedFile = FileState.unreadable → w.serverLM.isSome = true →
        (main_run w).outcome ≠ Outcome.noopUnchanged ∧ (main_run w).fetchCalled = true := by
  refine ⟨rfl, rfl, ?_⟩
  intro w hfile hsome
  obtain ⟨sLM, sF, jE, cE, cR, jS, cS⟩ := w
  simp only at hfile hsome
  subst hfile
  cases sLM with
  | none => simp at hsome
  | some cur =>
    unfold main_run
    dsimp only
    rw [if_neg (by simp [get_stored_last_modified])]
    cases hf : fetch_and_parse_pdf cR with
    | none => exact ⟨by simp, rfl⟩
    | some ts =>
      dsimp only
      by_cases hmerged : (process_and_concatenate_tables ts).isEmpty = true
      · rw [if_pos hmerged]
        exact ⟨by simp, rfl⟩
      · rw [if_neg hmerged]
        by_cases hsave : save_dataframes (process_and_concatenate_tables ts) jS cS = true
        · rw [if_pos hsave]
          exact ⟨by simp, rfl⟩
        · rw [if_neg hsave]
          exact ⟨by simp, rfl⟩

theorem C10_unreadable_cache_proceeds_witness :
    (main_run ⟨some "T", FileState.unreadable, true, true, none, true, true⟩).outcome
      ≠ Outcome.noopUnchanged
    ∧ (main_run ⟨some "T", FileState.unreadable, true, true, none, true, true⟩).fetchCalled = true :=
  C10_unreadable_cache_proceeds.2.2
    ⟨some "T", FileState.unreadable, true, true, none, true, true⟩ rfl rfl
